import Mathlib

/-!
# Verification of the deno-nitro attestation core (src/src/lib.rs)

Shallow embedding of the Rust attestation facade in `src/src/lib.rs`.
Byte buffers (`Vec<u8>` / `ByteBuf`) are modelled as `List Nat`; the
NSM `Request`/`Response` tagged unions are inductive types; the driver
singleton `NITRO` is passed explicitly as a function argument (its
`process_request` method); fallible construction (`.unwrap()` panics in
Rust) is modelled with `Except`.

Behaviour that the repository delegates to its dependency crates
(`nsm_nitro_enclave_utils`'s `DevNitro` document synthesis, pkcs8 key
decoding, `lazy_static` once-initialization, `clap` argument defaults)
is modelled from the specification; each such definition carries a doc
comment starting with `Modelled from the spec:`.
-/

namespace DenoNitro

/-- Byte buffers (`Vec<u8>` / `serde_bytes::ByteBuf`). -/
abbrev Bytes := List Nat

/-- The NSM API request union, restricted to the one variant built by
`src/src/lib.rs` (`Request::Attestation`).  In the NSM API all three
fields are `Option<ByteBuf>`; `r_attest` fills `user_data` with
`bytes.into()` (i.e. `Some bytes`). -/
inductive Request where
  | Attestation (user_data : Option Bytes) (public_key : Option Bytes) (nonce : Option Bytes)
deriving DecidableEq

/-- The NSM API response union.  `Attestation { document }` is the
variant unwrapped by `r_attest`; all other NSM response variants
(`GetRandom`, `Error`, ...) are collapsed into the non-attestation
constructors, which `r_attest` treats identically. -/
inductive Response where
  | Attestation (document : Bytes)
  | GetRandom (random : Bytes)
  | Error (code : Nat)
deriving DecidableEq

/-- `r_attest` from `src/src/lib.rs` lines 130-141, with the `NITRO`
singleton's `process_request` passed explicitly as `driver`.  It makes
a single call to the driver and unwraps the `Attestation` variant,
returning `vec![]` for every other variant.  The embedding is a total
function: no panic, no exception. -/
def r_attest (driver : Request → Response) (bytes : Bytes) : Bytes :=
  match driver (Request.Attestation (some bytes) none none) with
  | Response.Attestation document => document
  | _ => []

/-- `attest` from `src/src/lib.rs` lines 123-128: converts the borrowed
slice into a `ByteBuf` (identity in this model) and calls `r_attest`. -/
def attest (driver : Request → Response) (bytes : Bytes) : Bytes :=
  r_attest driver bytes

/-- Instrumented version of `r_attest` that also returns the list of
requests submitted to the driver.  The body is the body of `r_attest`
with the single `process_request` call logged; the first component is
provably equal to `r_attest driver bytes`. -/
def r_attestTraced (driver : Request → Response) (bytes : Bytes) : Bytes × List Request :=
  let req := Request.Attestation (some bytes) none none
  let response := driver req
  (match response with
   | Response.Attestation document => document
   | _ => [], [req])

/-! ## Attestation document model (mock backend)

The spec treats the document as an opaque byte sequence; its internal
encoding is the dependency crate's concern.  We model it as a record
of the fields the spec names (§3 Attestation Request/Response, §8),
together with an injective byte-level encoding so that the mock driver
still returns `Bytes` as the Rust `Response::Attestation` does. -/

/-- Fields of an attestation document, as named by the spec: the
request's user data, public key and nonce (embedded verbatim), the
platform measurement set, the end-entity certificate and the
intermediate-certificate chain. -/
structure AttestationDoc where
  user_data : Option Bytes
  public_key : Option Bytes
  nonce : Option Bytes
  pcrs : List Bytes
  certificate : Bytes
  cabundle : List Bytes
deriving DecidableEq

/-- Length-prefixed encoding of one byte buffer. -/
def encB (b : Bytes) : Bytes := b.length :: b

/-- Decode one length-prefixed byte buffer, returning it and the rest. -/
def decB : Bytes → Option (Bytes × Bytes)
  | [] => none
  | n :: rest => if n ≤ rest.length then some (rest.take n, rest.drop n) else none

/-- Encoding of an optional byte buffer: tag byte then the buffer. -/
def encOpt : Option Bytes → Bytes
  | none => [0]
  | some b => 1 :: encB b

/-- Decode an optional byte buffer. -/
def decOpt : Bytes → Option (Option Bytes × Bytes)
  | 0 :: rest => some (none, rest)
  | 1 :: rest => (decB rest).map (fun p => (some p.1, p.2))
  | _ => none

/-- Concatenation of length-prefixed buffers. -/
def encBs : List Bytes → Bytes
  | [] => []
  | b :: l => encB b ++ encBs l

/-- Encoding of a list of byte buffers: count then the buffers. -/
def encListB (l : List Bytes) : Bytes := l.length :: encBs l

/-- Decode `n` length-prefixed buffers. -/
def decListAux : Nat → Bytes → Option (List Bytes × Bytes)
  | 0, rest => some ([], rest)
  | n + 1, rest =>
    (decB rest).bind fun p =>
      (decListAux n p.2).map fun q => (p.1 :: q.1, q.2)

/-- Decode a count-prefixed list of byte buffers. -/
def decListB : Bytes → Option (List Bytes × Bytes)
  | [] => none
  | n :: rest => decListAux n rest

/-- Byte-level encoding of an attestation document (fields in a fixed
order).  Always non-empty: it starts with the tag byte of
`encOpt user_data`. -/
def encodeDoc (d : AttestationDoc) : Bytes :=
  encOpt d.user_data ++ (encOpt d.public_key ++ (encOpt d.nonce ++
    (encListB d.pcrs ++ (encB d.certificate ++ encListB d.cabundle))))

/-- Decode an attestation document from bytes; inverse of `encodeDoc`. -/
def decodeDoc (bs : Bytes) : Option AttestationDoc :=
  (decOpt bs).bind fun p1 =>
  (decOpt p1.2).bind fun p2 =>
  (decOpt p2.2).bind fun p3 =>
  (decListB p3.2).bind fun p4 =>
  (decB p4.2).bind fun p5 =>
  (decListB p5.2).bind fun p6 =>
  if p6.2 = [] then some ⟨p1.1, p2.1, p3.1, p4.1, p5.1, p6.1⟩ else none

/-! ## Mock driver (dev backend) -/

/-- A decoded signing key.  Decoding from the pkcs8 DER encoding lives
in the dependency crate, so the decoder is passed as a parameter to
`constructNitro` below; the key itself just owns its material. -/
structure SecretKey where
  material : Bytes
deriving DecidableEq

/-- Modelled from the spec: the Platform Measurement Set used by the
mock backend, `Pcrs::zeros()` — a fixed-size collection of measurement
slots all forced to zero (§3 Platform Measurement Set; the Nitro NSM
reports 48-byte PCR values in 16 slots in debug mode). -/
def Pcrs.zeros : List Bytes := List.replicate 16 (List.replicate 48 0)

/-- The mock driver configuration built by `DevNitro::builder(...)
.pcrs(...).ca_bundle(...).build()` in `src/src/lib.rs` lines 110-116:
a signing key, the end-entity certificate, the platform measurement
set and the intermediate-certificate chain, all immutable after
construction. -/
structure DevNitro where
  signing_key : SecretKey
  end_cert : Bytes
  pcrs : List Bytes
  ca_bundle : List Bytes
deriving DecidableEq

/-- Modelled from the spec: the mock driver's `process_request`
(dependency crate): it "synthesizes attestation documents locally
using the same request/response shape as the hardware path" (§2),
embedding `user_data`, `public_key` and `nonce` verbatim together with
the driver's measurement set and certificate chain (§3, §4.5, §8). -/
def DevNitro.processRequest (d : DevNitro) : Request → Response
  | Request.Attestation user_data public_key nonce =>
    Response.Attestation
      (encodeDoc ⟨user_data, public_key, nonce, d.pcrs, d.end_cert, d.ca_bundle⟩)

/-! ## Mock-backend construction (the `lazy_static` initializer body,
`src/src/lib.rs` lines 86-117, `dev` feature) -/

/-- Command-line arguments of the `dev` backend (`struct Args`,
`src/src/lib.rs` lines 59-80): paths of the signing key, the
end-entity certificate and the (repeatable) intermediate-certificate
files. -/
structure Args where
  signing_key : String
  end_cert : String
  int_certs : List String
deriving DecidableEq

/-- Fatal initialization errors.  In the Rust source both cases are
`.unwrap()` panics inside the `lazy_static` initializer; the panic is
modelled as `Except.error`, so an error value means the process
aborts and no driver instance exists. -/
inductive InitError where
  | ReadFailure (path : String)
  | CredentialDecodeError
deriving DecidableEq

/-- Read each file of a list of paths, aborting at the first failure —
the `args.int_certs.into_iter().map(|path| fs::read(&path).unwrap())
.collect()` loop of `src/src/lib.rs` lines 91-98.  `fs` maps a path to
its contents, `none` meaning the read fails. -/
def readFiles (fs : String → Option Bytes) : List String → Except InitError (List Bytes)
  | [] => Except.ok []
  | p :: ps =>
    match fs p with
    | none => Except.error (InitError.ReadFailure p)
    | some der =>
      match readFiles fs ps with
      | Except.error e => Except.error e
      | Except.ok rest => Except.ok (der :: rest)

/-- The `dev`-feature body of the `NITRO` lazy_static initializer
(`src/src/lib.rs` lines 86-117): read the intermediate certificates,
the end certificate and the signing key, decode the key, and build the
mock driver with zeroed PCRs and the intermediate chain.  `decode` is
`SecretKey::from_pkcs8_der` (dependency crate), `none` meaning the
bytes are not a valid key; `fs` is `std::fs::read`.  Every `.unwrap()`
panic becomes an `Except.error`. -/
def constructNitro (decode : Bytes → Option SecretKey) (fs : String → Option Bytes)
    (args : Args) : Except InitError DevNitro :=
  match readFiles fs args.int_certs with
  | Except.error e => Except.error e
  | Except.ok int_certs =>
    match fs args.end_cert with
    | none => Except.error (InitError.ReadFailure args.end_cert)
    | some end_cert =>
      match fs args.signing_key with
      | none => Except.error (InitError.ReadFailure args.signing_key)
      | some der =>
        match decode der with
        | none => Except.error InitError.CredentialDecodeError
        | some signing_key =>
          Except.ok ⟨signing_key, end_cert, Pcrs.zeros, int_certs⟩

/-- Accumulator for `clap` option parsing: options seen so far. -/
structure ArgsAcc where
  sk : Option String
  ec : Option String
  ics : List String

/-- Modelled from the spec: the `clap` long-option scan for the three
declared options of `struct Args` (`--signing-key`, `--end-cert` and
the repeatable `--int-certs`); anything else is a parse failure. -/
def parseArgsAux : List String → ArgsAcc → Option ArgsAcc
  | [], acc => some acc
  | [_], _ => none
  | a :: v :: rest, acc =>
    if a = "--signing-key" then parseArgsAux rest { acc with sk := some v }
    else if a = "--end-cert" then parseArgsAux rest { acc with ec := some v }
    else if a = "--int-certs" then parseArgsAux rest { acc with ics := acc.ics ++ [v] }
    else none

/-- Modelled from the spec: `Args::parse()`, applying the
`default_value` attributes declared in `src/src/lib.rs` lines 59-80
to every option that was not supplied. -/
def parseArgs (argv : List String) : Option Args :=
  (parseArgsAux argv ⟨none, none, []⟩).map fun acc =>
    { signing_key := acc.sk.getD "./test_data/end-signing-key.der"
      end_cert := acc.ec.getD "./test_data/end-certificate.der"
      int_certs := if acc.ics = [] then ["./test_data/int-certificate.der"] else acc.ics }

/-! ## Once-initialization of the `NITRO` singleton

`src/src/lib.rs` line 82 declares the singleton with `lazy_static!`,
whose synchronization lives in the dependency crate.  Modelled from
the spec (§4.3, §5): construction is guarded so that the first caller
wins, others wait, and the instance is read-only afterwards. -/

/-- State of the lazily-initialized cell: untouched, being constructed
by the thread that won the race, or holding the constructed driver. -/
inductive CellState where
  | uninit
  | building (owner : Nat)
  | ready
deriving DecidableEq

/-- Global state of the singleton model: the cell plus a counter of
completed constructions (the "construction counter in tests" of §8). -/
structure LazyState where
  cell : CellState
  constructions : Nat
deriving DecidableEq

/-- Process start: cell untouched, no construction has run. -/
def LazyState.start : LazyState := ⟨CellState.uninit, 0⟩

/-- Modelled from the spec: the transitions of the once-initializer
(§4.3, §5).  A thread finding the cell uninitialized acquires it
(first-caller-wins; a thread finding it `building` has no transition —
it blocks); the owner completes construction exactly once, bumping
the counter; any thread finding it ready performs a read-only access
that changes nothing. -/
inductive LazyStep : LazyState → LazyState → Prop
  | acquire (t c : Nat) : LazyStep ⟨CellState.uninit, c⟩ ⟨CellState.building t, c⟩
  | finish (t c : Nat) : LazyStep ⟨CellState.building t, c⟩ ⟨CellState.ready, c + 1⟩
  | readAccess (c : Nat) : LazyStep ⟨CellState.ready, c⟩ ⟨CellState.ready, c⟩

/-- States reachable from process start by any interleaving. -/
def LazyReachable (s : LazyState) : Prop :=
  Relation.ReflTransGen LazyStep LazyState.start s

/-- The once-initialization invariant: the counter is 0 until the cell
is ready, and 1 from then on. -/
def lazyInv (s : LazyState) : Prop :=
  match s.cell with
  | CellState.ready => s.constructions = 1
  | _ => s.constructions = 0

/-! ## Concrete instances used by the witness theorems -/

/-- A driver answering every request with a fixed document. -/
def driverYes : Request → Response := fun _ => Response.Attestation [9]

/-- A driver answering every request with a non-attestation variant. -/
def driverNo : Request → Response := fun _ => Response.Error 1

/-- A tiny filesystem holding the three default credential files. -/
def fsW : String → Option Bytes := fun p =>
  if p = "./test_data/end-signing-key.der" then some [1]
  else if p = "./test_data/end-certificate.der" then some [2]
  else if p = "./test_data/int-certificate.der" then some [3]
  else none

/-- A filesystem on which every read fails. -/
def fsNone : String → Option Bytes := fun _ => none

/-- A key decoder accepting any byte string. -/
def decodeW : Bytes → Option SecretKey := fun b => some ⟨b⟩

/-- A key decoder rejecting every byte string (all bytes malformed). -/
def decodeNone : Bytes → Option SecretKey := fun _ => none

/-- The default argument set (the three default paths). -/
def argsW : Args :=
  ⟨"./test_data/end-signing-key.der", "./test_data/end-certificate.der",
   ["./test_data/int-certificate.der"]⟩

/-- The mock driver that `constructNitro decodeW fsW argsW` builds. -/
def mockW : DevNitro := ⟨⟨[1]⟩, [2], Pcrs.zeros, [[3]]⟩

/-! ## Helper lemmas -/

theorem decB_encB (b t : Bytes) : decB (encB b ++ t) = some (b, t) := by
  simp [encB, decB, List.take_left, List.drop_left]

theorem decOpt_encOpt (o : Option Bytes) (t : Bytes) :
    decOpt (encOpt o ++ t) = some (o, t) := by
  cases o with
  | none => simp [encOpt, decOpt]
  | some b => simp [encOpt, decOpt, decB_encB]

theorem decListAux_encBs (l : List Bytes) (t : Bytes) :
    decListAux l.length (encBs l ++ t) = some (l, t) := by
  induction l generalizing t with
  | nil => simp [encBs, decListAux]
  | cons b l ih => simp [encBs, decListAux, decB_encB, ih]

theorem decListB_encListB (l : List Bytes) (t : Bytes) :
    decListB (encListB l ++ t) = some (l, t) := by
  simp [encListB, decListB, decListAux_encBs]

theorem decListB_encListB_nil (l : List Bytes) : decListB (encListB l) = some (l, []) := by
  have h := decListB_encListB l []
  simpa using h

theorem decodeDoc_encodeDoc (d : AttestationDoc) :
    decodeDoc (encodeDoc d) = some d := by
  simp [decodeDoc, encodeDoc, decOpt_encOpt, decListB_encListB, decB_encB,
    decListB_encListB_nil]

theorem encodeDoc_ne_nil (d : AttestationDoc) : encodeDoc d ≠ [] := by
  unfold encodeDoc encOpt
  cases d.user_data <;> simp

theorem lazyInv_step {s s' : LazyState} (hs : lazyInv s) (h : LazyStep s s') :
    lazyInv s' := by
  cases h with
  | acquire t c => simpa [lazyInv] using hs
  | finish t c => simp [lazyInv] at hs ⊢; omega
  | readAccess c => exact hs

theorem lazyInv_reachable {s : LazyState} (h : LazyReachable s) : lazyInv s := by
  induction h with
  | refl => simp [lazyInv, LazyState.start]
  | tail _ hstep ih => exact lazyInv_step ih hstep

theorem readFiles_ok_forall2 {fs : String → Option Bytes} :
    ∀ {l : List String} {bs : List Bytes}, readFiles fs l = Except.ok bs →
      List.Forall₂ (fun p b => fs p = some b) l bs := by
  intro l
  induction l with
  | nil =>
    intro bs h
    simp [readFiles] at h
    simp [← h]
  | cons p ps ih =>
    intro bs h
    cases hp : fs p with
    | none => simp [readFiles, hp] at h
    | some der =>
      cases hr : readFiles fs ps with
      | error e => simp [readFiles, hp, hr] at h
      | ok rest =>
        simp [readFiles, hp, hr] at h
        exact h ▸ List.Forall₂.cons hp (ih hr)

theorem readFiles_ok_of_isSome {fs : String → Option Bytes} :
    ∀ {l : List String}, (∀ p ∈ l, (fs p).isSome) →
      ∃ bs, readFiles fs l = Except.ok bs := by
  intro l
  induction l with
  | nil => exact fun _ => ⟨[], rfl⟩
  | cons p ps ih =>
    intro h
    obtain ⟨der, hp⟩ := Option.isSome_iff_exists.mp (h p (List.mem_cons_self p ps))
    obtain ⟨bs, hbs⟩ := ih (fun q hq => h q (List.mem_cons_of_mem p hq))
    exact ⟨der :: bs, by simp [readFiles, hp, hbs]⟩

theorem forall2_exists_left {α β : Type} {R : α → β → Prop} :
    ∀ {l : List α} {bs : List β}, List.Forall₂ R l bs → ∀ p ∈ l, ∃ b, R p b := by
  intro l bs h
  induction h with
  | nil => intro p hp; cases hp
  | cons hR _ ih =>
    intro p hp
    cases hp with
    | head => exact ⟨_, hR⟩
    | tail _ hp => exact ih p hp

theorem constructNitro_ok {decode : Bytes → Option SecretKey} {fs : String → Option Bytes}
    {args : Args} {d : DevNitro} (h : constructNitro decode fs args = Except.ok d) :
    readFiles fs args.int_certs = Except.ok d.ca_bundle ∧
    fs args.end_cert = some d.end_cert ∧
    (∃ der, fs args.signing_key = some der ∧ decode der = some d.signing_key) ∧
    d.pcrs = Pcrs.zeros := by
  cases hr : readFiles fs args.int_certs with
  | error e => simp [constructNitro, hr] at h
  | ok ics =>
    cases hec : fs args.end_cert with
    | none => simp [constructNitro, hr, hec] at h
    | some ec =>
      cases hsk : fs args.signing_key with
      | none => simp [constructNitro, hr, hec, hsk] at h
      | some der =>
        cases hdec : decode der with
        | none => simp [constructNitro, hr, hec, hsk, hdec] at h
        | some k =>
          simp [constructNitro, hr, hec, hsk, hdec] at h
          subst h
          exact ⟨rfl, rfl, ⟨der, rfl, hdec⟩, rfl⟩

theorem mem_zeros_eq_zero {slot : Bytes} (hs : slot ∈ Pcrs.zeros) :
    ∀ b ∈ slot, b = 0 := by
  intro b hb
  have h1 := List.eq_of_mem_replicate hs
  subst h1
  exact List.eq_of_mem_replicate hb

/-! ## Claim theorems -/

/-- C1: `attest` wraps the input bytes into exactly one Attestation
request with `public_key = none` and `nonce = none`, submits exactly
that one request to the driver (no retries), and when the driver
answers with the `Attestation { document }` variant it returns
`document` verbatim. -/
theorem attest_wraps_and_unwraps_once (driver : Request → Response) (bytes : Bytes) :
    (r_attestTraced driver bytes).2 = [Request.Attestation (some bytes) none none] ∧
    (r_attestTraced driver bytes).1 = attest driver bytes ∧
    ∀ doc, driver (Request.Attestation (some bytes) none none) = Response.Attestation doc →
      attest driver bytes = doc := by
  refine ⟨rfl, rfl, ?_⟩
  intro doc h
  simp [attest, r_attest, h]

theorem attest_wraps_and_unwraps_once_witness :
    (r_attestTraced driverYes [5]).2 = [Request.Attestation (some [5]) none none] ∧
    attest driverYes [5] = [9] :=
  ⟨(attest_wraps_and_unwraps_once driverYes [5]).1,
   (attest_wraps_and_unwraps_once driverYes [5]).2.2 [9] rfl⟩

/-- C2: under the mock backend, for every `user_data` buffer (the empty
buffer included) `attest` returns a non-empty document that decodes to
the input verbatim in its user-data field, absent nonce and public
key, and the all-zero measurement set. -/
theorem mock_attest_returns_document_fields (decode : Bytes → Option SecretKey)
    (fs : String → Option Bytes) (args : Args) (d : DevNitro)
    (h : constructNitro decode fs args = Except.ok d) (user_data : Bytes) :
    attest d.processRequest user_data ≠ [] ∧
    decodeDoc (attest d.processRequest user_data) =
      some ⟨some user_data, none, none, Pcrs.zeros, d.end_cert, d.ca_bundle⟩ := by
  have hz : d.pcrs = Pcrs.zeros := (constructNitro_ok h).2.2.2
  have hd : attest d.processRequest user_data =
      encodeDoc ⟨some user_data, none, none, d.pcrs, d.end_cert, d.ca_bundle⟩ := rfl
  rw [hd, hz]
  exact ⟨encodeDoc_ne_nil _, decodeDoc_encodeDoc _⟩

theorem mock_attest_returns_document_fields_witness :
    attest mockW.processRequest [] ≠ [] ∧
    decodeDoc (attest mockW.processRequest []) =
      some ⟨some [], none, none, Pcrs.zeros, mockW.end_cert, mockW.ca_bundle⟩ :=
  mock_attest_returns_document_fields decodeW fsW argsW mockW rfl []

/-- C3: whenever the driver answers the attestation request with any
variant other than `Attestation { document }`, `attest` returns the
empty byte sequence; the embedding is a total function, so no panic
or exception is possible. -/
theorem attest_other_variant_returns_empty (driver : Request → Response) (bytes : Bytes)
    (h : ∀ doc, driver (Request.Attestation (some bytes) none none) ≠
      Response.Attestation doc) :
    attest driver bytes = [] := by
  unfold attest r_attest
  cases hr : driver (Request.Attestation (some bytes) none none) with
  | Attestation doc => exact absurd hr (h doc)
  | GetRandom r => rfl
  | Error c => rfl

theorem attest_other_variant_returns_empty_witness : attest driverNo [4] = [] :=
  attest_other_variant_returns_empty driverNo [4]
    (fun _ h => Response.noConfusion h)

/-- C4: in every state reachable from process start, the singleton has
been constructed at most once; once the cell is ready the construction
has run exactly once; and from a ready state every step is a read-only
access leaving the state unchanged (no re-initialization). -/
theorem singleton_constructed_exactly_once (s : LazyState) (h : LazyReachable s) :
    s.constructions ≤ 1 ∧
    (s.cell = CellState.ready → s.constructions = 1) ∧
    ∀ s', s.cell = CellState.ready → LazyStep s s' → s' = s := by
  have hinv := lazyInv_reachable h
  unfold lazyInv at hinv
  refine ⟨?_, ?_, ?_⟩
  · cases hc : s.cell <;> rw [hc] at hinv <;> omega
  · intro hr; rw [hr] at hinv; exact hinv
  · intro s' hr hstep
    cases hstep with
    | acquire t c => simp at hr
    | finish t c => simp at hr
    | readAccess c => rfl

theorem singleton_constructed_exactly_once_witness :
    (⟨CellState.ready, 1⟩ : LazyState).constructions ≤ 1 ∧
    (⟨CellState.ready, 1⟩ : LazyState).constructions = 1 :=
  have hreach : LazyReachable ⟨CellState.ready, 1⟩ :=
    Relation.ReflTransGen.tail
      (Relation.ReflTransGen.tail Relation.ReflTransGen.refl (LazyStep.acquire 0 0))
      (LazyStep.finish 0 0)
  ⟨(singleton_constructed_exactly_once ⟨CellState.ready, 1⟩ hreach).1,
   (singleton_constructed_exactly_once ⟨CellState.ready, 1⟩ hreach).2.1 rfl⟩

/-- C5: when the signing-key file holds bytes that the private-key
decoder rejects (and the certificate reads themselves succeed, so the
decode step is reached), construction fails with
`CredentialDecodeError` and no driver instance is produced. -/
theorem malformed_signing_key_fatal (decode : Bytes → Option SecretKey)
    (fs : String → Option Bytes) (args : Args) (der : Bytes)
    (hint : ∀ p ∈ args.int_certs, (fs p).isSome)
    (hec : (fs args.end_cert).isSome)
    (hsk : fs args.signing_key = some der)
    (hdec : decode der = none) :
    constructNitro decode fs args = Except.error InitError.CredentialDecodeError := by
  obtain ⟨ics, hics⟩ := readFiles_ok_of_isSome hint
  obtain ⟨ec, hec2⟩ := Option.isSome_iff_exists.mp hec
  simp [constructNitro, hics, hec2, hsk, hdec]

theorem malformed_signing_key_fatal_witness :
    constructNitro decodeNone fsW argsW = Except.error InitError.CredentialDecodeError :=
  malformed_signing_key_fatal decodeNone fsW argsW [1] (by decide) (by decide)
    (by decide) rfl

/-- C6: every driver produced by mock-backend construction carries the
all-zero Platform Measurement Set, and every document it produces for
an `attest` call decodes to one whose measurement slots hold only
zero bytes. -/
theorem mock_measurements_all_zero (decode : Bytes → Option SecretKey)
    (fs : String → Option Bytes) (args : Args) (d : DevNitro)
    (h : constructNitro decode fs args = Except.ok d) :
    d.pcrs = Pcrs.zeros ∧
    ∀ user_data, ∃ doc, decodeDoc (attest d.processRequest user_data) = some doc ∧
      ∀ slot ∈ doc.pcrs, ∀ b ∈ slot, b = 0 := by
  have hz : d.pcrs = Pcrs.zeros := (constructNitro_ok h).2.2.2
  refine ⟨hz, fun user_data => ?_⟩
  refine ⟨⟨some user_data, none, none, d.pcrs, d.end_cert, d.ca_bundle⟩,
    decodeDoc_encodeDoc _, ?_⟩
  intro slot hs
  rw [hz] at hs
  exact mem_zeros_eq_zero hs

theorem mock_measurements_all_zero_witness :
    mockW.pcrs = Pcrs.zeros ∧
    ∀ user_data, ∃ doc, decodeDoc (attest mockW.processRequest user_data) = some doc ∧
      ∀ slot ∈ doc.pcrs, ∀ b ∈ slot, b = 0 :=
  mock_measurements_all_zero decodeW fsW argsW mockW rfl

/-- C7: `attest` is stateless — each call is a pure function of the
immutable driver and the input, so two calls with equal input bytes
submit identical requests (with the user data verbatim and absent
public key and nonce) and return identical results. -/
theorem attest_stateless_identical_requests (driver : Request → Response)
    (b1 b2 : Bytes) (h : b1 = b2) :
    (r_attestTraced driver b1).2 = (r_attestTraced driver b2).2 ∧
    (r_attestTraced driver b1).2 = [Request.Attestation (some b1) none none] ∧
    attest driver b1 = attest driver b2 := by
  subst h
  exact ⟨rfl, rfl, rfl⟩

theorem attest_stateless_identical_requests_witness :
    (r_attestTraced driverYes [1, 2]).2 = (r_attestTraced driverYes [1, 2]).2 ∧
    (r_attestTraced driverYes [1, 2]).2 = [Request.Attestation (some [1, 2]) none none] ∧
    attest driverYes [1, 2] = attest driverYes [1, 2] :=
  attest_stateless_identical_requests driverYes [1, 2] [1, 2] rfl

/-- C8: when mock-backend construction succeeds, the end-entity
certificate and each intermediate certificate reach the driver as the
exact bytes read from disk (opaque, no parsing or validation), and
the intermediate certificates appear in exactly the order their paths
were supplied. -/
theorem certs_opaque_and_ordered (decode : Bytes → Option SecretKey)
    (fs : String → Option Bytes) (args : Args) (d : DevNitro)
    (h : constructNitro decode fs args = Except.ok d) :
    List.Forall₂ (fun p b => fs p = some b) args.int_certs d.ca_bundle ∧
    fs args.end_cert = some d.end_cert := by
  obtain ⟨hr, hec, _, _⟩ := constructNitro_ok h
  exact ⟨readFiles_ok_forall2 hr, hec⟩

theorem certs_opaque_and_ordered_witness :
    List.Forall₂ (fun p b => fsW p = some b) argsW.int_certs mockW.ca_bundle ∧
    fsW argsW.end_cert = some mockW.end_cert :=
  certs_opaque_and_ordered decodeW fsW argsW mockW rfl

/-- C9: a failed read of any of the three credential file kinds — an
intermediate certificate, the end-entity certificate or the signing
key — aborts construction with an error (the `.unwrap()` panic), so
no driver instance is produced; I/O failure is as fatal as a decode
failure. -/
theorem credential_read_failure_fatal (decode : Bytes → Option SecretKey)
    (fs : String → Option Bytes) (args : Args)
    (h : (∃ p ∈ args.int_certs, fs p = none) ∨ fs args.end_cert = none ∨
      fs args.signing_key = none) :
    ∃ e, constructNitro decode fs args = Except.error e := by
  cases hr : readFiles fs args.int_certs with
  | error e => exact ⟨e, by simp [constructNitro, hr]⟩
  | ok ics =>
    cases hec : fs args.end_cert with
    | none =>
      exact ⟨InitError.ReadFailure args.end_cert, by simp [constructNitro, hr, hec]⟩
    | some ec =>
      cases hsk : fs args.signing_key with
      | none =>
        exact ⟨InitError.ReadFailure args.signing_key,
          by simp [constructNitro, hr, hec, hsk]⟩
      | some der =>
        exfalso
        rcases h with ⟨p, hp, hnone⟩ | h | h
        · obtain ⟨b, hb⟩ := forall2_exists_left (readFiles_ok_forall2 hr) p hp
          rw [hnone] at hb
          exact Option.noConfusion hb
        · rw [hec] at h
          exact Option.noConfusion h
        · rw [hsk] at h
          exact Option.noConfusion h

theorem credential_read_failure_fatal_witness :
    ∃ e, constructNitro decodeW fsNone argsW = Except.error e :=
  credential_read_failure_fatal decodeW fsNone argsW
    (Or.inl ⟨"./test_data/int-certificate.der", by decide, rfl⟩)

/-- C10: parsing an empty command line yields the three default
credential paths `./test_data/end-signing-key.der`,
`./test_data/end-certificate.der` and
`./test_data/int-certificate.der`, and with those defaults mock
construction can succeed without any explicit configuration (for a
filesystem and decoder that accept the default files). -/
theorem default_paths_allow_mock_construction :
    parseArgs [] = some ⟨"./test_data/end-signing-key.der",
      "./test_data/end-certificate.der", ["./test_data/int-certificate.der"]⟩ ∧
    ∃ decode fs d, constructNitro decode fs
      ⟨"./test_data/end-signing-key.der", "./test_data/end-certificate.der",
       ["./test_data/int-certificate.der"]⟩ = Except.ok d :=
  ⟨rfl, decodeW, fsW, mockW, rfl⟩

end DenoNitro
